import Mathlib

/-!
Shallow embedding of the Repo2Doc agent orchestration engine
(src/state.py, src/config_loader.py, src/nodes/init_node.py,
src/nodes/doc_node.py, src/nodes/check_node.py, src/nodes/tool_node.py,
src/nodes/save_node.py, src/agent_workflow.py).

External effects (LLM calls, file reads, tool handlers) are modelled as
parameters bundled in `Env`; everything the engine itself computes is
translated directly from the Python source.
-/

namespace Repo2Doc

/-- src/state.py `ToolCall`: one recorded tool invocation.
Python dict arguments are modelled as an insertion-ordered association list. -/
structure ToolCall where
  tool_name : String
  arguments : List (String × String)
  result : String
  success : Bool
deriving DecidableEq

/-- src/state.py `ExplorationRecord`: one audit entry per loop pass. -/
structure ExplorationRecord where
  iteration : Nat
  action : String
  findings : String
  tool_calls : List ToolCall
deriving DecidableEq

/-- src/state.py `AgentState` (the TypedDict threaded through every node).
`messages` is omitted: no node in the repository ever reads or writes it. -/
structure AgentState where
  repo_path : String
  config_path : Option String
  readme_content : String
  directory_tree : String
  project_files : List String
  high_level_info : String
  exploration_history : List ExplorationRecord
  current_tool_results : String
  current_document : String
  document_versions : List String
  is_complete : Bool
  missing_parts : List String
  confidence_score : ℚ
  iteration_count : Nat
  max_iterations : Nat
  status : String
  error : Option String
deriving DecidableEq

/-- src/state.py `create_initial_state`. -/
def create_initial_state (repo_path : String) (config_path : Option String)
    (max_iterations : Nat) : AgentState :=
  { repo_path := repo_path
    config_path := config_path
    readme_content := ""
    directory_tree := ""
    project_files := []
    high_level_info := ""
    exploration_history := []
    current_tool_results := ""
    current_document := ""
    document_versions := []
    is_complete := false
    missing_parts := []
    confidence_score := 0
    iteration_count := 0
    max_iterations := max_iterations
    status := "initialized"
    error := none }

/-- src/config_loader.py `AgentConfig` (defaults 10 and 5). -/
structure AgentConfig where
  max_iterations : Nat := 10
  max_tool_calls_per_iteration : Nat := 5
deriving DecidableEq

/-- One entry of an oracle-proposed tool call, as read in
src/nodes/tool_node.py lines 83-85 with `tool_spec.get(key, default)`:
each key may be absent, hence `Option`. -/
structure ToolSpec where
  tool : Option String
  args : Option (List (String × String))
  reason : Option String
deriving DecidableEq

/-- Python dict assignment `d[k] = v`: update in place if the key exists,
otherwise append at the end (insertion order preserved). -/
def dictSet : List (String × String) → String → String → List (String × String)
  | [], k, v => [(k, v)]
  | (k', v') :: rest, k, v =>
      if k' = k then (k, v) :: rest else (k', v') :: dictSet rest k v

/-- Python dict lookup `d.get(k)`: first binding of the key. -/
def dictGet : List (String × String) → String → Option String
  | [], _ => none
  | (k', v') :: rest, k => if k' = k then some v' else dictGet rest k

/-- Capability handlers return `Except`; equality of concrete outcomes is
decidable componentwise. -/
instance {e a : Type} [DecidableEq e] [DecidableEq a] : DecidableEq (Except e a) := fun x y =>
  match x, y with
  | .ok u, .ok v => decidable_of_iff (u = v) (by simp)
  | .error u, .error v => decidable_of_iff (u = v) (by simp)
  | .ok _, .error _ => isFalse (by simp)
  | .error _, .ok _ => isFalse (by simp)

/-- Outcome of the oracle reply in `_evaluate_completeness`
(src/nodes/check_node.py lines 117-148): either `re.search` finds no
JSON-like block, or the block fails `json.loads`, or a dict is parsed
(whose keys may each be absent, read via `result.get(key, default)`). -/
inductive EvalReply where
  | noBlock
  | badJson
  | parsed (is_complete : Option Bool) (confidence_score : Option ℚ)
      (missing_parts : Option (List String)) (suggested_tools : Option (List ToolSpec))
deriving DecidableEq

/-- The tuple returned by `_evaluate_completeness`. -/
structure Verdict where
  is_complete : Bool
  confidence_score : ℚ
  missing_parts : List String
  suggested_tools : List ToolSpec
deriving DecidableEq

/-- src/nodes/check_node.py `_evaluate_completeness`, lines 117-148: parse the
oracle reply; with no JSON block the default dict
`is_complete = iteration >= 3, confidence 0.7, [], []` is used; a
`json.JSONDecodeError` yields the conservative `(False, 0.5, ["无法评估"], [])`. -/
def evaluateCompleteness (reply : EvalReply) (iteration : Nat) : Verdict :=
  match reply with
  | .noBlock =>
      { is_complete := decide (iteration ≥ 3)
        confidence_score := mkRat 7 10
        missing_parts := []
        suggested_tools := [] }
  | .badJson =>
      { is_complete := false
        confidence_score := mkRat 1 2
        missing_parts := ["无法评估"]
        suggested_tools := [] }
  | .parsed ic conf mp st =>
      { is_complete := ic.getD false
        confidence_score := conf.getD (mkRat 1 2)
        missing_parts := mp.getD []
        suggested_tools := st.getD [] }

/-- A naive rendering of `json.dumps(suggested_tools, ensure_ascii=False)`
(src/nodes/check_node.py line 70). The engine never inspects this string:
it is overwritten by the tool node before any other read. -/
def specJson (sp : ToolSpec) : String :=
  "\x7b" ++ String.intercalate ", "
    ((match sp.tool with
      | some t => ["\"tool\": \"" ++ t ++ "\""]
      | none => []) ++
     (match sp.args with
      | some d => ["\"args\": \x7b" ++
          String.intercalate ", " (d.map (fun p => "\"" ++ p.1 ++ "\": \"" ++ p.2 ++ "\"")) ++ "\x7d"]
      | none => []) ++
     (match sp.reason with
      | some r => ["\"reason\": \"" ++ r ++ "\""]
      | none => [])) ++ "\x7d"

/-- `json.dumps` of the whole suggested-tools list. -/
def jsonDumpsTools (l : List ToolSpec) : String :=
  "[" ++ String.intercalate ", " (l.map specJson) ++ "]"

/-- src/nodes/check_node.py `check_completeness_node`, lines 22-73: the
iteration cap is checked first (lines 40-45); only under the cap is the
oracle consulted and the verdict applied. -/
def checkCompletenessNode (reply : EvalReply) (state : AgentState) : AgentState :=
  if state.iteration_count ≥ state.max_iterations then
    { state with is_complete := true, status := "completed" }
  else if (evaluateCompleteness reply state.iteration_count).is_complete then
    { state with is_complete := (evaluateCompleteness reply state.iteration_count).is_complete
                 confidence_score := (evaluateCompleteness reply state.iteration_count).confidence_score
                 missing_parts := (evaluateCompleteness reply state.iteration_count).missing_parts
                 status := "completed" }
  else
    { state with is_complete := (evaluateCompleteness reply state.iteration_count).is_complete
                 confidence_score := (evaluateCompleteness reply state.iteration_count).confidence_score
                 missing_parts := (evaluateCompleteness reply state.iteration_count).missing_parts
                 status := "needs_exploration"
                 current_tool_results :=
                   jsonDumpsTools (evaluateCompleteness reply state.iteration_count).suggested_tools }

/-- src/nodes/doc_node.py `_update_document`, line 265: format of the
missing-parts bullet list handed to the oracle. -/
def formatMissing (missing : List String) : String :=
  if missing.isEmpty then "无"
  else String.intercalate "\n" (missing.map (fun p => "- " ++ p))

/-- The external collaborators of one run, as blocking functions:
the oracle in its three modes, the capability handlers, the seed
information read from disk, and persistence success. -/
structure Env where
  repoExists : Bool
  readme : String
  tree : String
  projectFiles : List String
  highLevelInfo : String
  synthInit : String → String
  synthUpdate : String → String → String → String
  evalReply : Nat → EvalReply
  selReply : Nat → Option (List ToolSpec)
  handler : String → List (String × String) → Except String String
  persistOk : Bool

/-- src/nodes/doc_node.py `generate_doc_node`, lines 174-221: first call uses
the initial prompt on `high_level_info`, later calls the update prompt on the
current document, tool results and missing parts; then the new text is
appended to the version history, `iteration_count` is incremented and the
pending tool results are cleared. -/
def generateDocNode (env : Env) (state : AgentState) : AgentState :=
  let new_document :=
    if state.iteration_count = 0 then
      env.synthInit state.high_level_info
    else
      env.synthUpdate state.current_document state.current_tool_results
        (formatMissing state.missing_parts)
  { state with current_document := new_document
               document_versions := state.document_versions ++ [new_document]
               iteration_count := state.iteration_count + 1
               current_tool_results := ""
               status := "doc_generated" }

/-- src/nodes/tool_node.py `TOOL_REGISTRY`: the fixed capability catalog
(handlers themselves are external collaborators, supplied by `Env.handler`). -/
def TOOL_REGISTRY : List String :=
  ["get_file_content", "get_file_outline", "get_function_info", "get_class_info",
   "search_code", "search_imports", "list_files_by_extension"]

/-- src/nodes/tool_node.py `_select_tools_with_llm`, lines 137-173: a parsed
JSON reply yields `result.get("tool_calls", [])`; any failure (LLM error, no
JSON block, decode error) falls back to the fixed default exploration call. -/
def selectToolsWithLLM (reply : Option (List ToolSpec)) : List ToolSpec :=
  match reply with
  | some l => l
  | none =>
      [{ tool := some "list_files_by_extension"
         args := some [("extension", ".py")]
         reason := some "探索 Python 源代码" }]

/-- Result of `json.loads(state["current_tool_results"])` in
src/nodes/tool_node.py lines 57-68: the string may be empty (falsy), fail to
decode, decode to a list, to a dict holding a `tool_calls` key, or to
anything else. -/
inductive ToolResultsParse where
  | emptyStr
  | decodeError
  | parsedList (l : List ToolSpec)
  | parsedDictWithCalls (l : List ToolSpec)
  | parsedOther
deriving DecidableEq

/-- Lines 57-68 of src/nodes/tool_node.py: the suggested tools recovered from
`current_tool_results` (empty list in every failure case). -/
def suggestedFromParse : ToolResultsParse → List ToolSpec
  | .emptyStr => []
  | .decodeError => []
  | .parsedList l => l
  | .parsedDictWithCalls l => l
  | .parsedOther => []

/-- Python string slicing `s[:n]`: the first `n` code points. -/
def strTake (s : String) (n : Nat) : String :=
  String.mk (s.data.take n)

/-- Python `repr` of a string-valued dict, as interpolated into the result
entries at line 107 of src/nodes/tool_node.py. -/
def reprDict (d : List (String × String)) : String :=
  "\x7b" ++ String.intercalate ", "
    (d.map (fun p => "\x27" ++ p.1 ++ "\x27: \x27" ++ p.2 ++ "\x27")) ++ "\x7d"

/-- The evidence entry built at line 107 for a successful call. -/
def resultEntryOk (tool_name : String) (args : List (String × String))
    (reason result : String) : String :=
  "### 工具: " ++ tool_name ++ "\n**参数**: " ++ reprDict args ++
    "\n**原因**: " ++ reason ++ "\n**结果**:\n" ++ result ++ "\n"

/-- The evidence entry built at line 117 for a failed call. -/
def resultEntryErr (tool_name e : String) : String :=
  "### 工具: " ++ tool_name ++ "\n**错误**: " ++ e ++ "\n"

/-- The dispatch loop of src/nodes/tool_node.py lines 82-117: for each
proposal read `tool`/`args`/`reason` with defaults, skip names absent from
the registry (`continue`), otherwise inject `repo_path` into the arguments,
invoke the handler, and record a `ToolCall` (result truncated to 2000
characters on success, the error text on failure) plus one evidence entry.
Returns the recorded calls and the evidence entries in order. -/
def execTools (handler : String → List (String × String) → Except String String)
    (repo_path : String) : List ToolSpec → List ToolCall × List String
  | [] => ([], [])
  | spec :: rest =>
      let tool_name := spec.tool.getD ""
      let args := spec.args.getD []
      let reason := spec.reason.getD ""
      if tool_name ∈ TOOL_REGISTRY then
        let args' := dictSet args "repo_path" repo_path
        match handler tool_name args' with
        | .ok result =>
            let r := execTools handler repo_path rest
            ({ tool_name := tool_name, arguments := args'
               result := strTake result 2000, success := true } :: r.1,
             resultEntryOk tool_name args' reason result :: r.2)
        | .error e =>
            let r := execTools handler repo_path rest
            ({ tool_name := tool_name, arguments := args'
               result := e, success := false } :: r.1,
             resultEntryErr tool_name e :: r.2)
      else
        execTools handler repo_path rest

/-- The proposal list actually dispatched (lines 70-76): the parsed
suggestions, or the fallback selection when they are empty, truncated to
`max_tool_calls_per_iteration`. -/
def effectiveProposals (cfg : AgentConfig) (env : Env) (parse : ToolResultsParse)
    (state : AgentState) : List ToolSpec :=
  (if (suggestedFromParse parse).isEmpty then
    selectToolsWithLLM (env.selReply state.iteration_count)
   else suggestedFromParse parse).take cfg.max_tool_calls_per_iteration

/-- The `ExplorationRecord` built at lines 120-125 of src/nodes/tool_node.py. -/
def dispatchRecord (cfg : AgentConfig) (env : Env) (parse : ToolResultsParse)
    (state : AgentState) : ExplorationRecord :=
  { iteration := state.iteration_count
    action := "执行了 " ++
      toString (execTools env.handler state.repo_path
        (effectiveProposals cfg env parse state)).1.length ++ " 个工具调用"
    findings := "获取了 " ++
      toString ((execTools env.handler state.repo_path
        (effectiveProposals cfg env parse state)).1.filter (·.success)).length ++ " 个成功结果"
    tool_calls := (execTools env.handler state.repo_path
      (effectiveProposals cfg env parse state)).1 }

/-- src/nodes/tool_node.py `tool_execution_node`, lines 37-134. -/
def toolExecutionNode (cfg : AgentConfig) (env : Env) (parse : ToolResultsParse)
    (state : AgentState) : AgentState :=
  { state with exploration_history :=
                 state.exploration_history ++ [dispatchRecord cfg env parse state]
               current_tool_results :=
                 String.intercalate "\n\n" (execTools env.handler state.repo_path
                   (effectiveProposals cfg env parse state)).2
               status := "tools_executed" }

/-- src/nodes/init_node.py `init_node`, lines 57-63 and onward: a missing
repository root short-circuits to status `error`; otherwise the seed
information (README, directory tree, project files, high-level summary —
all read from disk or built from it, hence supplied by `Env`) is stored
and the status stays `initialized`. -/
def initNode (env : Env) (state : AgentState) : AgentState :=
  if !env.repoExists then
    { state with status := "error"
                 error := some ("仓库路径不存在: " ++ state.repo_path) }
  else
    { state with readme_content := env.readme
                 directory_tree := env.tree
                 project_files := env.projectFiles
                 high_level_info := env.highLevelInfo
                 status := "initialized" }

/-- src/nodes/save_node.py `save_output_node`: the writes are external; on
success the status becomes `completed`, on a storage failure `error`. -/
def saveOutputNode (env : Env) (state : AgentState) : AgentState :=
  if env.persistOk then
    { state with status := "completed" }
  else
    { state with status := "error", error := some "保存输出失败" }

/-- Which node produced an observation point of the run trace. -/
inductive NodeTag where
  | init
  | gen
  | chk
  | tool
  | save
deriving DecidableEq

/-- The state after the check node of one loop pass starting at `s`: the
check always follows one generate, and the oracle reply is indexed by the
iteration counter at that point. -/
def chkOf (env : Env) (s : AgentState) : AgentState :=
  checkCompletenessNode (env.evalReply (generateDocNode env s).iteration_count)
    (generateDocNode env s)

/-- The verdict computed inside the check node of one loop pass starting
at `s` (src/nodes/check_node.py line 51). -/
def verdictOf (env : Env) (s : AgentState) : Verdict :=
  evaluateCompleteness (env.evalReply (generateDocNode env s).iteration_count)
    (generateDocNode env s).iteration_count

/-- The state after the tool node of one loop pass starting at `s`. The
check node stored `json.dumps` of the verdict's suggested tools in
`current_tool_results` and the tool node decodes it back with `json.loads`;
since loads inverts dumps, the verdict's list is handed over directly. -/
def toolOf (cfg : AgentConfig) (env : Env) (s : AgentState) : AgentState :=
  toolExecutionNode cfg env (.parsedList (verdictOf env s).suggested_tools) (chkOf env s)

/-- The loop of src/agent_workflow.py `_build_graph`, lines 77-109, starting
at `generate_doc`: generate, then check (routing on `_check_error` and
`_route_after_check`), then either save or tools and back to generate.
Returns the trace of observation points (the state after each node);
`fuel` bounds the number of remaining loop passes. -/
def loopTrace (cfg : AgentConfig) (env : Env) : Nat → AgentState → List (NodeTag × AgentState)
  | 0, _ => []
  | fuel + 1, s =>
      if (generateDocNode env s).status = "error" then [(.gen, generateDocNode env s)]
      else if (chkOf env s).status = "error" then
        [(.gen, generateDocNode env s), (.chk, chkOf env s)]
      else if (chkOf env s).is_complete then
        [(.gen, generateDocNode env s), (.chk, chkOf env s),
         (.save, saveOutputNode env (chkOf env s))]
      else if (toolOf cfg env s).status = "error" then
        [(.gen, generateDocNode env s), (.chk, chkOf env s), (.tool, toolOf cfg env s)]
      else
        (.gen, generateDocNode env s) :: (.chk, chkOf env s) :: (.tool, toolOf cfg env s) ::
          loopTrace cfg env fuel (toolOf cfg env s)

/-- src/agent_workflow.py `run` (lines 161-193) plus the graph entry edges:
build the initial state from the configured `max_iterations`, run `init`,
stop on `error`, otherwise enter the loop. -/
def runAgent (cfg : AgentConfig) (env : Env) (repo_path : String) (fuel : Nat) :
    List (NodeTag × AgentState) :=
  if (initNode env (create_initial_state repo_path none cfg.max_iterations)).status = "error" then
    [(.init, initNode env (create_initial_state repo_path none cfg.max_iterations))]
  else
    (.init, initNode env (create_initial_state repo_path none cfg.max_iterations)) ::
      loopTrace cfg env fuel (initNode env (create_initial_state repo_path none cfg.max_iterations))

/-- Number of synthesizer (generate_doc) calls recorded in a trace. -/
def genCount (tr : List (NodeTag × AgentState)) : Nat :=
  tr.countP (fun p => p.1 = NodeTag.gen)

/-! ## Concrete fixtures used for counterexamples and witnesses -/

/-- An environment whose oracle always parses to an incomplete verdict with
no proposals, whose capability handlers always succeed, and whose
capability-selection oracle always fails (so the fixed default applies). -/
def envNever : Env :=
  { repoExists := true
    readme := ""
    tree := ""
    projectFiles := []
    highLevelInfo := ""
    synthInit := fun _ => "d"
    synthUpdate := fun _ _ _ => "d"
    evalReply := fun _ => .parsed (some false) (some (mkRat 1 2)) (some []) (some [])
    selReply := fun _ => none
    handler := fun _ _ => .ok "ok"
    persistOk := true }

/-- `envNever` with a missing repository root. -/
def envNoRepo : Env := { envNever with repoExists := false }

/-- `envNever` with a handler that fails on `search_code` only. -/
def envFail : Env :=
  { envNever with handler := fun n _ => if n = "search_code" then .error "boom" else .ok "ok" }

/-- A configuration with `max_iterations = 0`. -/
def cfgZero : AgentConfig := { max_iterations := 0, max_tool_calls_per_iteration := 5 }

/-- A configuration with `max_iterations = 2`. -/
def cfgTwo : AgentConfig := { max_iterations := 2, max_tool_calls_per_iteration := 5 }

/-- A configuration with a per-iteration call budget of 1. -/
def cfgOneCall : AgentConfig := { max_iterations := 2, max_tool_calls_per_iteration := 1 }

/-- A proposal naming a capability absent from the registry. -/
def badSpec : ToolSpec :=
  { tool := some "nonexistent_tool", args := some [], reason := some "" }

/-- A registered proposal that also smuggles an oracle-supplied repo path. -/
def goodSpec : ToolSpec :=
  { tool := some "get_file_content"
    args := some [("repo_path", "EVIL"), ("file_path", "x")]
    reason := some "r" }

/-- A registered proposal whose handler fails under `envFail`. -/
def failSpec : ToolSpec :=
  { tool := some "search_code", args := some [], reason := some "" }

/-- The call recorded when `goodSpec` is dispatched from repo root "r". -/
def tcC7 : ToolCall :=
  { tool_name := "get_file_content"
    arguments := [("repo_path", "r"), ("file_path", "x")]
    result := "ok"
    success := true }

/-- The exploration record produced by dispatching `[goodSpec]` under
`envNever` from the freshly initialized state for repo "r". -/
def recC7 : ExplorationRecord :=
  { iteration := 0
    action := "执行了 1 个工具调用"
    findings := "获取了 1 个成功结果"
    tool_calls := [tcC7] }

/-! ## Projection lemmas for the individual nodes -/

theorem generateDocNode_iteration (env : Env) (s : AgentState) :
    (generateDocNode env s).iteration_count = s.iteration_count + 1 := rfl

theorem generateDocNode_max (env : Env) (s : AgentState) :
    (generateDocNode env s).max_iterations = s.max_iterations := rfl

theorem generateDocNode_status (env : Env) (s : AgentState) :
    (generateDocNode env s).status = "doc_generated" := rfl

theorem generateDocNode_versions_length (env : Env) (s : AgentState) :
    (generateDocNode env s).document_versions.length = s.document_versions.length + 1 := by
  simp [generateDocNode]

theorem checkCompletenessNode_iteration (r : EvalReply) (s : AgentState) :
    (checkCompletenessNode r s).iteration_count = s.iteration_count := by
  unfold checkCompletenessNode
  split
  · rfl
  · split <;> rfl

theorem checkCompletenessNode_max (r : EvalReply) (s : AgentState) :
    (checkCompletenessNode r s).max_iterations = s.max_iterations := by
  unfold checkCompletenessNode
  split
  · rfl
  · split <;> rfl

theorem checkCompletenessNode_versions (r : EvalReply) (s : AgentState) :
    (checkCompletenessNode r s).document_versions = s.document_versions := by
  unfold checkCompletenessNode
  split
  · rfl
  · split <;> rfl

theorem checkCompletenessNode_status (r : EvalReply) (s : AgentState) :
    (checkCompletenessNode r s).status = "completed" ∨
      (checkCompletenessNode r s).status = "needs_exploration" := by
  unfold checkCompletenessNode
  split
  · exact Or.inl rfl
  · split
    · exact Or.inl rfl
    · exact Or.inr rfl

/-- The iteration-cap branch of check_completeness_node (lines 40-45): the
cap forces completion without consulting the verdict. -/
theorem checkCompletenessNode_cap (r : EvalReply) (s : AgentState)
    (h : s.iteration_count ≥ s.max_iterations) :
    checkCompletenessNode r s = { s with is_complete := true, status := "completed" } := by
  unfold checkCompletenessNode
  rw [if_pos h]

/-- Under the cap with an incomplete verdict, the check node routes to
exploration and stores the suggested tools. -/
theorem checkCompletenessNode_under_incomplete (r : EvalReply) (s : AgentState)
    (h : ¬ s.iteration_count ≥ s.max_iterations)
    (hv : (evaluateCompleteness r s.iteration_count).is_complete = false) :
    checkCompletenessNode r s =
      { s with is_complete := false
               confidence_score := (evaluateCompleteness r s.iteration_count).confidence_score
               missing_parts := (evaluateCompleteness r s.iteration_count).missing_parts
               status := "needs_exploration"
               current_tool_results :=
                 jsonDumpsTools (evaluateCompleteness r s.iteration_count).suggested_tools } := by
  unfold checkCompletenessNode
  rw [if_neg h, if_neg (by rw [hv]; exact Bool.false_ne_true)]
  rw [hv]

theorem toolExecutionNode_iteration (cfg : AgentConfig) (env : Env)
    (parse : ToolResultsParse) (s : AgentState) :
    (toolExecutionNode cfg env parse s).iteration_count = s.iteration_count := rfl

theorem toolExecutionNode_max (cfg : AgentConfig) (env : Env)
    (parse : ToolResultsParse) (s : AgentState) :
    (toolExecutionNode cfg env parse s).max_iterations = s.max_iterations := rfl

theorem toolExecutionNode_versions (cfg : AgentConfig) (env : Env)
    (parse : ToolResultsParse) (s : AgentState) :
    (toolExecutionNode cfg env parse s).document_versions = s.document_versions := rfl

theorem toolExecutionNode_status (cfg : AgentConfig) (env : Env)
    (parse : ToolResultsParse) (s : AgentState) :
    (toolExecutionNode cfg env parse s).status = "tools_executed" := rfl

theorem toolExecutionNode_explo (cfg : AgentConfig) (env : Env)
    (parse : ToolResultsParse) (s : AgentState) :
    (toolExecutionNode cfg env parse s).exploration_history =
      s.exploration_history ++ [dispatchRecord cfg env parse s] := rfl

theorem toolExecutionNode_results (cfg : AgentConfig) (env : Env)
    (parse : ToolResultsParse) (s : AgentState) :
    (toolExecutionNode cfg env parse s).current_tool_results =
      String.intercalate "\n\n" (execTools env.handler s.repo_path
        (effectiveProposals cfg env parse s)).2 := rfl

theorem saveOutputNode_iteration (env : Env) (s : AgentState) :
    (saveOutputNode env s).iteration_count = s.iteration_count := by
  unfold saveOutputNode
  split <;> rfl

theorem saveOutputNode_max (env : Env) (s : AgentState) :
    (saveOutputNode env s).max_iterations = s.max_iterations := by
  unfold saveOutputNode
  split <;> rfl

theorem saveOutputNode_versions (env : Env) (s : AgentState) :
    (saveOutputNode env s).document_versions = s.document_versions := by
  unfold saveOutputNode
  split <;> rfl

theorem saveOutputNode_status (env : Env) (s : AgentState) :
    (saveOutputNode env s).status = "completed" ∨ (saveOutputNode env s).status = "error" := by
  unfold saveOutputNode
  split
  · exact Or.inl rfl
  · exact Or.inr rfl

theorem initNode_iteration (env : Env) (s : AgentState) :
    (initNode env s).iteration_count = s.iteration_count := by
  unfold initNode
  split <;> rfl

theorem initNode_max (env : Env) (s : AgentState) :
    (initNode env s).max_iterations = s.max_iterations := by
  unfold initNode
  split <;> rfl

theorem initNode_versions (env : Env) (s : AgentState) :
    (initNode env s).document_versions = s.document_versions := by
  unfold initNode
  split <;> rfl

theorem initNode_ok (env : Env) (s : AgentState) (h : env.repoExists = true) :
    initNode env s =
      { s with readme_content := env.readme
               directory_tree := env.tree
               project_files := env.projectFiles
               high_level_info := env.highLevelInfo
               status := "initialized" } := by
  unfold initNode
  rw [h]
  rfl

theorem initNode_missing (env : Env) (s : AgentState) (h : env.repoExists = false) :
    initNode env s =
      { s with status := "error", error := some ("仓库路径不存在: " ++ s.repo_path) } := by
  unfold initNode
  rw [h]
  rfl

/-! ## Composite-step lemmas -/

theorem chkOf_iteration (env : Env) (s : AgentState) :
    (chkOf env s).iteration_count = s.iteration_count + 1 := by
  unfold chkOf
  rw [checkCompletenessNode_iteration, generateDocNode_iteration]

theorem chkOf_max (env : Env) (s : AgentState) :
    (chkOf env s).max_iterations = s.max_iterations := by
  unfold chkOf
  rw [checkCompletenessNode_max, generateDocNode_max]

theorem chkOf_versions_length (env : Env) (s : AgentState) :
    (chkOf env s).document_versions.length = s.document_versions.length + 1 := by
  unfold chkOf
  rw [checkCompletenessNode_versions, generateDocNode_versions_length]

theorem toolOf_iteration (cfg : AgentConfig) (env : Env) (s : AgentState) :
    (toolOf cfg env s).iteration_count = s.iteration_count + 1 := by
  unfold toolOf
  rw [toolExecutionNode_iteration, chkOf_iteration]

theorem toolOf_max (cfg : AgentConfig) (env : Env) (s : AgentState) :
    (toolOf cfg env s).max_iterations = s.max_iterations := by
  unfold toolOf
  rw [toolExecutionNode_max, chkOf_max]

theorem toolOf_versions_length (cfg : AgentConfig) (env : Env) (s : AgentState) :
    (toolOf cfg env s).document_versions.length = s.document_versions.length + 1 := by
  unfold toolOf
  rw [toolExecutionNode_versions, chkOf_versions_length]

/-- The two error edges of the loop are dead: the generate and tool nodes
always leave non-error statuses and the check node leaves `completed` or
`needs_exploration`, so one loop pass reduces to the complete/explore split. -/
theorem loopTrace_succ_eq (cfg : AgentConfig) (env : Env) (fuel : Nat) (s : AgentState) :
    loopTrace cfg env (fuel + 1) s =
      if (chkOf env s).is_complete then
        [(.gen, generateDocNode env s), (.chk, chkOf env s),
         (.save, saveOutputNode env (chkOf env s))]
      else
        (.gen, generateDocNode env s) :: (.chk, chkOf env s) :: (.tool, toolOf cfg env s) ::
          loopTrace cfg env fuel (toolOf cfg env s) := by
  have h1 : ¬ (generateDocNode env s).status = "error" := by
    rw [generateDocNode_status]
    decide
  have h2 : ¬ (chkOf env s).status = "error" := by
    rcases checkCompletenessNode_status (env.evalReply (generateDocNode env s).iteration_count)
      (generateDocNode env s) with h | h <;>
      · unfold chkOf
        rw [h]
        decide
  have h3 : ¬ (toolOf cfg env s).status = "error" := by
    have ht : (toolOf cfg env s).status = "tools_executed" := rfl
    rw [ht]
    decide
  rw [loopTrace, if_neg h1, if_neg h2, if_neg h3]

/-! ## Dispatcher lemmas -/

theorem dictGet_dictSet_self (d : List (String × String)) (k v : String) :
    dictGet (dictSet d k v) k = some v := by
  induction d with
  | nil => simp [dictSet, dictGet]
  | cons p rest ih =>
      obtain ⟨k', v'⟩ := p
      by_cases h : k' = k
      · simp [dictSet, dictGet, h]
      · simp [dictSet, dictGet, h, ih]

/-- The recorded tool names of a dispatch are exactly the registered names
among the proposals, in order: unregistered names are skipped, every other
proposal is recorded whether its handler succeeds or fails. -/
theorem execTools_names (h : String → List (String × String) → Except String String)
    (repo : String) (l : List ToolSpec) :
    ((execTools h repo l).1).map (fun tc => tc.tool_name) =
      (l.map (fun sp => sp.tool.getD "")).filter (fun n => decide (n ∈ TOOL_REGISTRY)) := by
  induction l with
  | nil => simp [execTools]
  | cons spec rest ih =>
      by_cases hreg : spec.tool.getD "" ∈ TOOL_REGISTRY
      · cases hres : h (spec.tool.getD "") (dictSet (spec.args.getD []) "repo_path" repo) with
        | ok r => simp [execTools, hreg, hres, ih]
        | error e => simp [execTools, hreg, hres, ih]
      · simp [execTools, hreg, ih]

/-- Every recorded call carries the engine-injected repository root. -/
theorem execTools_repoPath (h : String → List (String × String) → Except String String)
    (repo : String) (l : List ToolSpec) :
    ∀ tc ∈ (execTools h repo l).1, dictGet tc.arguments "repo_path" = some repo := by
  induction l with
  | nil => simp [execTools]
  | cons spec rest ih =>
      intro tc htc
      by_cases hreg : spec.tool.getD "" ∈ TOOL_REGISTRY
      · cases hres : h (spec.tool.getD "") (dictSet (spec.args.getD []) "repo_path" repo) with
        | ok r =>
            simp only [execTools, hreg, if_true, hres] at htc
            rcases List.mem_cons.mp htc with hh | hh
            · subst hh
              exact dictGet_dictSet_self _ _ _
            · exact ih tc hh
        | error e =>
            simp only [execTools, hreg, if_true, hres] at htc
            rcases List.mem_cons.mp htc with hh | hh
            · subst hh
              exact dictGet_dictSet_self _ _ _
            · exact ih tc hh
      · simp only [execTools, hreg, if_false] at htc
        exact ih tc htc

/-- Every recorded call names a registered capability. -/
theorem execTools_registered (h : String → List (String × String) → Except String String)
    (repo : String) (l : List ToolSpec) :
    ∀ tc ∈ (execTools h repo l).1, tc.tool_name ∈ TOOL_REGISTRY := by
  induction l with
  | nil => simp [execTools]
  | cons spec rest ih =>
      intro tc htc
      by_cases hreg : spec.tool.getD "" ∈ TOOL_REGISTRY
      · cases hres : h (spec.tool.getD "") (dictSet (spec.args.getD []) "repo_path" repo) with
        | ok r =>
            simp only [execTools, hreg, if_true, hres] at htc
            rcases List.mem_cons.mp htc with hh | hh
            · subst hh
              exact hreg
            · exact ih tc hh
        | error e =>
            simp only [execTools, hreg, if_true, hres] at htc
            rcases List.mem_cons.mp htc with hh | hh
            · subst hh
              exact hreg
            · exact ih tc hh
      · simp only [execTools, hreg, if_false] at htc
        exact ih tc htc

/-- A batch whose every proposal names an unregistered capability records
nothing and produces no evidence. -/
theorem execTools_skip_all (h : String → List (String × String) → Except String String)
    (repo : String) :
    ∀ l : List ToolSpec, (∀ sp ∈ l, sp.tool.getD "" ∉ TOOL_REGISTRY) →
      execTools h repo l = ([], []) := by
  intro l
  induction l with
  | nil => intro _; rfl
  | cons spec rest ih =>
      intro hall
      have h1 : spec.tool.getD "" ∉ TOOL_REGISTRY := hall spec (List.mem_cons_self _ _)
      have h2 := ih (fun sp hsp => hall sp (List.mem_cons_of_mem _ hsp))
      simp [execTools, h1, h2]

/-- A failing handler isolates to its own call: the failure is recorded with
`success = false` and the error text, its evidence entry is emitted, and the
rest of the batch is dispatched unchanged. -/
theorem execTools_error_cons (h : String → List (String × String) → Except String String)
    (repo : String) (spec : ToolSpec) (rest : List ToolSpec) (e : String)
    (hreg : spec.tool.getD "" ∈ TOOL_REGISTRY)
    (herr : h (spec.tool.getD "") (dictSet (spec.args.getD []) "repo_path" repo) =
      .error e) :
    execTools h repo (spec :: rest) =
      ({ tool_name := spec.tool.getD ""
         arguments := dictSet (spec.args.getD []) "repo_path" repo
         result := e
         success := false } :: (execTools h repo rest).1,
       resultEntryErr (spec.tool.getD "") e :: (execTools h repo rest).2) := by
  simp [execTools, hreg, herr]

/-- The batch actually dispatched never exceeds the configured budget. -/
theorem effectiveProposals_length (cfg : AgentConfig) (env : Env)
    (parse : ToolResultsParse) (s : AgentState) :
    (effectiveProposals cfg env parse s).length ≤ cfg.max_tool_calls_per_iteration := by
  unfold effectiveProposals
  exact List.length_take_le _ _

/-- With a non-empty parsed proposal list the fallback selection is skipped:
the dispatched batch is the first `max_tool_calls_per_iteration` proposals. -/
theorem effectiveProposals_parsedList (cfg : AgentConfig) (env : Env)
    (s : AgentState) (l : List ToolSpec) (h : l ≠ []) :
    effectiveProposals cfg env (.parsedList l) s =
      l.take cfg.max_tool_calls_per_iteration := by
  unfold effectiveProposals suggestedFromParse
  rw [if_neg (by simpa using h)]

/-- With an empty proposal list the dispatcher falls back to the
model-driven or default selection. -/
theorem effectiveProposals_empty (cfg : AgentConfig) (env : Env) (s : AgentState)
    (parse : ToolResultsParse) (h : suggestedFromParse parse = []) :
    effectiveProposals cfg env parse s =
      (selectToolsWithLLM (env.selReply s.iteration_count)).take
        cfg.max_tool_calls_per_iteration := by
  unfold effectiveProposals
  rw [h]
  rfl

/-! ## Loop-level lemmas -/

/-- The artifact-version / iteration-count equality (claim C2's invariant) is
preserved by every loop pass, hence holds at every observation point of the
loop. -/
theorem loopTrace_versions (cfg : AgentConfig) (env : Env) :
    ∀ (fuel : Nat) (s : AgentState), s.document_versions.length = s.iteration_count →
      ∀ p ∈ loopTrace cfg env fuel s, p.2.document_versions.length = p.2.iteration_count := by
  intro fuel
  induction fuel with
  | zero =>
      intro s _ p hp
      simp [loopTrace] at hp
  | succ fuel ih =>
      intro s hs p hp
      have hgen : (generateDocNode env s).document_versions.length =
          (generateDocNode env s).iteration_count := by
        rw [generateDocNode_versions_length, generateDocNode_iteration, hs]
      have hchk : (chkOf env s).document_versions.length = (chkOf env s).iteration_count := by
        rw [chkOf_versions_length, chkOf_iteration, hs]
      have htool : (toolOf cfg env s).document_versions.length =
          (toolOf cfg env s).iteration_count := by
        rw [toolOf_versions_length, toolOf_iteration, hs]
      rw [loopTrace_succ_eq] at hp
      split at hp
      · simp only [List.mem_cons, List.not_mem_nil, or_false] at hp
        rcases hp with h | h | h <;> subst h
        · exact hgen
        · exact hchk
        · show (saveOutputNode env (chkOf env s)).document_versions.length = _
          rw [saveOutputNode_versions, saveOutputNode_iteration]
          exact hchk
      · rcases List.mem_cons.mp hp with h | hp
        · subst h
          exact hgen
        rcases List.mem_cons.mp hp with h | hp
        · subst h
          exact hchk
        rcases List.mem_cons.mp hp with h | hp
        · subst h
          exact htool
        exact ih (toolOf cfg env s) htool p hp

/-- When the evaluator never reports completion, the loop started strictly
under the cap performs exactly the remaining budget of synthesis calls,
keeps `iteration_count` within the cap at every observation point, and ends
in the persistence node at the cap. -/
theorem loopTrace_cap (cfg : AgentConfig) (env : Env)
    (H : ∀ k, (evaluateCompleteness (env.evalReply k) k).is_complete = false) :
    ∀ (fuel : Nat) (s : AgentState),
      s.iteration_count < s.max_iterations →
      s.max_iterations ≤ s.iteration_count + fuel →
      genCount (loopTrace cfg env fuel s) = s.max_iterations - s.iteration_count ∧
      (∀ p ∈ loopTrace cfg env fuel s, p.2.iteration_count ≤ s.max_iterations) ∧
      ∃ pre s2, loopTrace cfg env fuel s = pre ++ [(NodeTag.save, s2)] ∧
        s2.iteration_count = s.max_iterations ∧
        (s2.status = "completed" ∨ s2.status = "error") := by
  intro fuel
  induction fuel with
  | zero =>
      intro s h1 h2
      exact absurd h2 (by omega)
  | succ fuel ih =>
      intro s h1 h2
      by_cases hcap : s.iteration_count + 1 ≥ s.max_iterations
      · have hcomplete : (chkOf env s).is_complete = true := by
          unfold chkOf
          rw [checkCompletenessNode_cap _ _
            (by rw [generateDocNode_iteration, generateDocNode_max]; exact hcap)]
        rw [loopTrace_succ_eq, if_pos hcomplete]
        refine ⟨?_, ?_, ?_⟩
        · have hg : genCount [(NodeTag.gen, generateDocNode env s), (NodeTag.chk, chkOf env s),
              (NodeTag.save, saveOutputNode env (chkOf env s))] = 1 := rfl
          rw [hg]
          omega
        · intro p hp
          simp only [List.mem_cons, List.not_mem_nil, or_false] at hp
          rcases hp with h | h | h <;> subst h
          · rw [generateDocNode_iteration]
            omega
          · rw [chkOf_iteration]
            omega
          · show (saveOutputNode env (chkOf env s)).iteration_count ≤ _
            rw [saveOutputNode_iteration, chkOf_iteration]
            omega
        · refine ⟨[(NodeTag.gen, generateDocNode env s), (NodeTag.chk, chkOf env s)],
            saveOutputNode env (chkOf env s), rfl, ?_, saveOutputNode_status env _⟩
          rw [saveOutputNode_iteration, chkOf_iteration]
          omega
      · have hcomplete : (chkOf env s).is_complete = false := by
          unfold chkOf
          rw [checkCompletenessNode_under_incomplete _ _
            (by rw [generateDocNode_iteration, generateDocNode_max]; exact hcap)
            (by rw [generateDocNode_iteration]; exact H _)]
        rw [loopTrace_succ_eq, if_neg (by rw [hcomplete]; exact Bool.false_ne_true)]
        obtain ⟨hg, hm, pre, s2, heq, hs2iter, hs2status⟩ :=
          ih (toolOf cfg env s)
            (by rw [toolOf_iteration, toolOf_max]; omega)
            (by rw [toolOf_iteration, toolOf_max]; omega)
        refine ⟨?_, ?_, ?_⟩
        · have hsplit : genCount ((NodeTag.gen, generateDocNode env s) ::
              (NodeTag.chk, chkOf env s) :: (NodeTag.tool, toolOf cfg env s) ::
              loopTrace cfg env fuel (toolOf cfg env s)) =
              genCount (loopTrace cfg env fuel (toolOf cfg env s)) + 1 := by
            simp [genCount, List.countP_cons]
          rw [hsplit, hg, toolOf_iteration, toolOf_max]
          omega
        · intro p hp
          rcases List.mem_cons.mp hp with h | hp
          · subst h
            rw [generateDocNode_iteration]
            omega
          rcases List.mem_cons.mp hp with h | hp
          · subst h
            rw [chkOf_iteration]
            omega
          rcases List.mem_cons.mp hp with h | hp
          · subst h
            rw [toolOf_iteration]
            omega
          have := hm p hp
          rw [toolOf_max] at this
          exact this
        · refine ⟨(NodeTag.gen, generateDocNode env s) :: (NodeTag.chk, chkOf env s) ::
            (NodeTag.tool, toolOf cfg env s) :: pre, s2, ?_, ?_, hs2status⟩
          · rw [heq]
            rfl
          · rw [hs2iter, toolOf_max]

/-! ## Claim theorems -/

/-- C1, counterexample: with `max_iterations = 0` the run still performs one
synthesis call (the graph goes unconditionally from init to generate_doc
before the first cap check), so an observation point exists where
`iteration_count` exceeds the configured maximum, and the number of
synthesis calls is 1, not 0. The evaluator of `envNever` never reports
completion. -/
theorem C1_counterexample :
    cfgZero.max_iterations = 0 ∧
    (evaluateCompleteness (envNever.evalReply 1) 1).is_complete = false ∧
    genCount (runAgent cfgZero envNever "r" 1) = 1 ∧
    ∃ p ∈ runAgent cfgZero envNever "r" 1,
      p.2.max_iterations < p.2.iteration_count := by
  decide

/-- C1, amended: for every configured `max_iterations = N ≥ 1`, if the
repository exists and the evaluator never reports completion, the run
performs exactly `N` synthesis calls, `iteration_count` never exceeds `N` at
any observation point, and the run ends in the persistence node at
`iteration_count = N` with a terminal status — the cap check runs before the
verdict, forcing completion at the cap. (For `N = 0` the first synthesis
still happens, see the counterexample.) -/
theorem C1_iteration_cap (cfg : AgentConfig) (env : Env) (repo : String) (fuel : Nat)
    (hrepo : env.repoExists = true)
    (hN : 1 ≤ cfg.max_iterations)
    (hfuel : cfg.max_iterations ≤ fuel)
    (H : ∀ k, (evaluateCompleteness (env.evalReply k) k).is_complete = false) :
    genCount (runAgent cfg env repo fuel) = cfg.max_iterations ∧
    (∀ p ∈ runAgent cfg env repo fuel, p.2.iteration_count ≤ cfg.max_iterations) ∧
    ∃ pre s2, runAgent cfg env repo fuel = pre ++ [(NodeTag.save, s2)] ∧
      s2.iteration_count = cfg.max_iterations ∧
      (s2.status = "completed" ∨ s2.status = "error") := by
  have hinit := initNode_ok env (create_initial_state repo none cfg.max_iterations) hrepo
  have hstat : (initNode env (create_initial_state repo none cfg.max_iterations)).status =
      "initialized" := by rw [hinit]
  have hrun : runAgent cfg env repo fuel =
      (NodeTag.init, initNode env (create_initial_state repo none cfg.max_iterations)) ::
        loopTrace cfg env fuel (initNode env (create_initial_state repo none cfg.max_iterations)) := by
    unfold runAgent
    rw [if_neg (by rw [hstat]; decide)]
  have hiter : (initNode env (create_initial_state repo none cfg.max_iterations)).iteration_count
      = 0 := by
    rw [hinit]
    rfl
  have hmax : (initNode env (create_initial_state repo none cfg.max_iterations)).max_iterations
      = cfg.max_iterations := by
    rw [hinit]
    rfl
  obtain ⟨hg, hm, pre, s2, heq, hs2iter, hs2status⟩ :=
    loopTrace_cap cfg env H fuel (initNode env (create_initial_state repo none cfg.max_iterations))
      (by rw [hiter, hmax]; omega) (by rw [hiter, hmax]; omega)
  rw [hiter, hmax] at hg
  rw [hmax] at hm hs2iter
  refine ⟨?_, ?_, ?_⟩
  · rw [hrun]
    have hcons : genCount ((NodeTag.init,
        initNode env (create_initial_state repo none cfg.max_iterations)) ::
        loopTrace cfg env fuel (initNode env (create_initial_state repo none cfg.max_iterations))) =
        genCount (loopTrace cfg env fuel
          (initNode env (create_initial_state repo none cfg.max_iterations))) := by
      simp [genCount, List.countP_cons]
    rw [hcons, hg]
    omega
  · intro p hp
    rw [hrun] at hp
    rcases List.mem_cons.mp hp with h | hp
    · subst h
      rw [hiter]
      omega
    · exact hm p hp
  · exact ⟨(NodeTag.init, initNode env (create_initial_state repo none cfg.max_iterations)) :: pre,
      s2, by rw [hrun, heq]; rfl, hs2iter, hs2status⟩

/-- C1, witness for the amended claim at `N = 2` with an evaluator stub that
never reports completion. -/
theorem C1_iteration_cap_witness :
    genCount (runAgent cfgTwo envNever "r" 2) = cfgTwo.max_iterations ∧
    ∃ pre s2, runAgent cfgTwo envNever "r" 2 = pre ++ [(NodeTag.save, s2)] ∧
      s2.iteration_count = cfgTwo.max_iterations ∧
      (s2.status = "completed" ∨ s2.status = "error") :=
  ⟨(C1_iteration_cap cfgTwo envNever "r" 2 rfl (by decide) (by decide) (fun _ => rfl)).1,
   (C1_iteration_cap cfgTwo envNever "r" 2 rfl (by decide) (by decide) (fun _ => rfl)).2.2⟩

/-- C2: `len(document_versions) = iteration_count` at every observation
point of every run — both are 0 before the first synthesis, each synthesis
appends exactly one version and increments the counter by exactly one, and
no other node touches either field. -/
theorem C2_versions_eq_iterations (cfg : AgentConfig) (env : Env) (repo : String) (fuel : Nat) :
    ∀ p ∈ runAgent cfg env repo fuel,
      p.2.document_versions.length = p.2.iteration_count := by
  intro p hp
  have hbase : (initNode env (create_initial_state repo none
      cfg.max_iterations)).document_versions.length =
      (initNode env (create_initial_state repo none cfg.max_iterations)).iteration_count := by
    rw [initNode_versions, initNode_iteration]
    rfl
  unfold runAgent at hp
  split at hp
  · simp only [List.mem_singleton] at hp
    subst hp
    exact hbase
  · rcases List.mem_cons.mp hp with h | hp
    · subst h
      exact hbase
    · exact loopTrace_versions cfg env fuel _ hbase p hp

/-- C2, witness: the state after the first synthesis of a concrete run has
one version and iteration count one. -/
theorem C2_versions_eq_iterations_witness :
    ((NodeTag.gen, generateDocNode envNever
        (initNode envNever (create_initial_state "r" none 2))) ∈
      runAgent cfgTwo envNever "r" 2) ∧
    (generateDocNode envNever
        (initNode envNever (create_initial_state "r" none 2))).document_versions.length =
      (generateDocNode envNever
        (initNode envNever (create_initial_state "r" none 2))).iteration_count :=
  ⟨by decide, C2_versions_eq_iterations cfgTwo envNever "r" 2
    (NodeTag.gen, generateDocNode envNever (initNode envNever (create_initial_state "r" none 2)))
    (by decide)⟩

/-- C3: when the evaluator reply contains no parseable structured block, the
fallback verdict is a pure function of the iteration count alone:
completeness is exactly `iteration ≥ 3`, confidence is the fixed policy
value 0.7, the missing-aspect list is empty and no capability calls are
proposed. -/
theorem C3_noBlock_fallback (i : Nat) :
    (evaluateCompleteness EvalReply.noBlock i).is_complete = decide (3 ≤ i) ∧
    (evaluateCompleteness EvalReply.noBlock i).confidence_score = mkRat 7 10 ∧
    (evaluateCompleteness EvalReply.noBlock i).missing_parts = [] ∧
    (evaluateCompleteness EvalReply.noBlock i).suggested_tools = [] :=
  ⟨rfl, rfl, rfl, rfl⟩

/-- C10: when a JSON-like block is found but fails to decode, the verdict is
the conservative one for every iteration count — completeness false (so a
broken block can never force completion), confidence 0.5, and the single
sentinel missing entry. -/
theorem C10_badJson_conservative (i : Nat) :
    (evaluateCompleteness EvalReply.badJson i).is_complete = false ∧
    (evaluateCompleteness EvalReply.badJson i).confidence_score = mkRat 1 2 ∧
    (evaluateCompleteness EvalReply.badJson i).missing_parts = ["无法评估"] ∧
    (evaluateCompleteness EvalReply.badJson i).suggested_tools = [] :=
  ⟨rfl, rfl, rfl, rfl⟩

/-- C4, counterexample: with a budget of 1 and proposals
`[unregistered, registered]`, the registered proposal is NOT executed — the
truncation to the budget happens before the registry check, so the
unregistered name does count against the budget (the claim would have the
registered call executed, and the handler would have succeeded). -/
theorem C4_counterexample :
    cfgOneCall.max_tool_calls_per_iteration = 1 ∧
    badSpec.tool.getD "" ∉ TOOL_REGISTRY ∧
    goodSpec.tool.getD "" ∈ TOOL_REGISTRY ∧
    envNever.handler (goodSpec.tool.getD "")
      (dictSet (goodSpec.args.getD []) "repo_path" "r") = Except.ok "ok" ∧
    ((toolExecutionNode cfgOneCall envNever (.parsedList [badSpec, goodSpec])
        (create_initial_state "r" none 10)).exploration_history.map
      (fun r => r.tool_calls)) = [[]] := by
  decide

/-- C4, amended: an unregistered proposed name is skipped without execution,
but it does count against the per-iteration budget: the proposal list is
truncated to `max_tool_calls_per_iteration` first, and only the registered
names among that prefix are executed and recorded, in order. -/
theorem C4_amended (cfg : AgentConfig) (env : Env) (s : AgentState)
    (l : List ToolSpec) (h : l ≠ []) :
    ∃ rec, (toolExecutionNode cfg env (.parsedList l) s).exploration_history =
        s.exploration_history ++ [rec] ∧
      rec.tool_calls.map (fun tc => tc.tool_name) =
        ((l.take cfg.max_tool_calls_per_iteration).map (fun sp => sp.tool.getD "")).filter
          (fun n => decide (n ∈ TOOL_REGISTRY)) := by
  refine ⟨dispatchRecord cfg env (.parsedList l) s, toolExecutionNode_explo _ _ _ _, ?_⟩
  show ((execTools env.handler s.repo_path
    (effectiveProposals cfg env (.parsedList l) s)).1).map _ = _
  rw [execTools_names, effectiveProposals_parsedList _ _ _ _ h]

/-- C4, witness for the amended claim: budget 1, proposals
`[unregistered, registered]`, recorded names are empty. -/
theorem C4_amended_witness :
    ∃ rec, (toolExecutionNode cfgOneCall envNever (.parsedList [badSpec, goodSpec])
        (create_initial_state "r" none 10)).exploration_history =
      (create_initial_state "r" none 10).exploration_history ++ [rec] ∧
      rec.tool_calls.map (fun tc => tc.tool_name) =
        (([badSpec, goodSpec].take cfgOneCall.max_tool_calls_per_iteration).map
          (fun sp => sp.tool.getD "")).filter (fun n => decide (n ∈ TOOL_REGISTRY)) :=
  C4_amended cfgOneCall envNever (create_initial_state "r" none 10) [badSpec, goodSpec]
    (by decide)

/-- C5: a dispatcher batch records at most `max_tool_calls_per_iteration`
capability calls; the executed calls are exactly the registered names among
the truncated proposal list, and the evidence bundle that feeds the next
synthesis is built from those executed calls only — the excess proposals are
dropped, not queued. -/
theorem C5_budget (cfg : AgentConfig) (env : Env) (parse : ToolResultsParse)
    (s : AgentState) :
    ∃ rec, (toolExecutionNode cfg env parse s).exploration_history =
        s.exploration_history ++ [rec] ∧
      rec.tool_calls.length ≤ cfg.max_tool_calls_per_iteration ∧
      rec.tool_calls.map (fun tc => tc.tool_name) =
        ((effectiveProposals cfg env parse s).map (fun sp => sp.tool.getD "")).filter
          (fun n => decide (n ∈ TOOL_REGISTRY)) ∧
      (toolExecutionNode cfg env parse s).current_tool_results =
        String.intercalate "\n\n" (execTools env.handler s.repo_path
          (effectiveProposals cfg env parse s)).2 := by
  refine ⟨dispatchRecord cfg env parse s, toolExecutionNode_explo _ _ _ _, ?_, ?_,
    toolExecutionNode_results _ _ _ _⟩
  · calc (dispatchRecord cfg env parse s).tool_calls.length
        = (((execTools env.handler s.repo_path
            (effectiveProposals cfg env parse s)).1).map (fun tc => tc.tool_name)).length := by
          rw [List.length_map]
          rfl
      _ = (((effectiveProposals cfg env parse s).map (fun sp => sp.tool.getD "")).filter
            (fun n => decide (n ∈ TOOL_REGISTRY))).length := by
          rw [execTools_names]
      _ ≤ ((effectiveProposals cfg env parse s).map (fun sp => sp.tool.getD "")).length :=
          List.length_filter_le _ _
      _ = (effectiveProposals cfg env parse s).length := by
          rw [List.length_map]
      _ ≤ cfg.max_tool_calls_per_iteration := effectiveProposals_length cfg env parse s
  · exact execTools_names env.handler s.repo_path (effectiveProposals cfg env parse s)

/-- C6, counterexample: when the sole proposal names an unregistered
capability, the dispatcher executes zero calls and does NOT fall back to its
default selection, although the default (the fixed
`list_files_by_extension` call) was available and registered. -/
theorem C6_counterexample :
    badSpec.tool.getD "" ∉ TOOL_REGISTRY ∧
    (selectToolsWithLLM (envNever.selReply 0)).map (fun sp => sp.tool.getD "") =
      ["list_files_by_extension"] ∧
    "list_files_by_extension" ∈ TOOL_REGISTRY ∧
    ((toolExecutionNode cfgOneCall envNever (.parsedList [badSpec])
        (create_initial_state "r" none 10)).exploration_history.map
      (fun r => r.tool_calls)) = [[]] := by
  decide

/-- C6, amended: the fallback selection is consulted only when the parsed
proposal list is empty; a non-empty proposal list consisting solely of
unregistered names makes the dispatcher execute zero calls for that batch
(and produce an empty evidence bundle) instead of falling back. -/
theorem C6_amended (cfg : AgentConfig) (env : Env) (s : AgentState)
    (l : List ToolSpec) (h1 : l ≠ [])
    (h2 : ∀ sp ∈ l, sp.tool.getD "" ∉ TOOL_REGISTRY) :
    ∃ rec, (toolExecutionNode cfg env (.parsedList l) s).exploration_history =
        s.exploration_history ++ [rec] ∧
      rec.tool_calls = [] ∧
      (toolExecutionNode cfg env (.parsedList l) s).current_tool_results = "" ∧
      effectiveProposals cfg env (.parsedList ([] : List ToolSpec)) s =
        (selectToolsWithLLM (env.selReply s.iteration_count)).take
          cfg.max_tool_calls_per_iteration := by
  have hskip : execTools env.handler s.repo_path
      (effectiveProposals cfg env (.parsedList l) s) = ([], []) := by
    rw [effectiveProposals_parsedList _ _ _ _ h1]
    exact execTools_skip_all _ _ _ (fun sp hsp => h2 sp (List.take_subset _ _ hsp))
  refine ⟨dispatchRecord cfg env (.parsedList l) s, toolExecutionNode_explo _ _ _ _, ?_, ?_,
    effectiveProposals_empty _ _ _ _ rfl⟩
  · show (execTools env.handler s.repo_path
      (effectiveProposals cfg env (.parsedList l) s)).1 = []
    rw [hskip]
  · rw [toolExecutionNode_results, hskip]
    rfl

/-- C6, witness for the amended claim with the sole unregistered proposal. -/
theorem C6_amended_witness :
    ∃ rec, (toolExecutionNode cfgOneCall envNever (.parsedList [badSpec])
        (create_initial_state "r" none 10)).exploration_history =
      (create_initial_state "r" none 10).exploration_history ++ [rec] ∧
      rec.tool_calls = [] ∧
      (toolExecutionNode cfgOneCall envNever (.parsedList [badSpec])
        (create_initial_state "r" none 10)).current_tool_results = "" ∧
      effectiveProposals cfgOneCall envNever (.parsedList ([] : List ToolSpec))
          (create_initial_state "r" none 10) =
        (selectToolsWithLLM (envNever.selReply
          (create_initial_state "r" none 10).iteration_count)).take
            cfgOneCall.max_tool_calls_per_iteration :=
  C6_amended cfgOneCall envNever (create_initial_state "r" none 10) [badSpec]
    (by decide) (by decide)

/-- C7: every capability call recorded by the dispatcher carries the
engine-supplied repository root under the `repo_path` key — any value the
oracle put there is overwritten before invocation. -/
theorem C7_repo_path_injection (cfg : AgentConfig) (env : Env) (parse : ToolResultsParse)
    (s : AgentState) (rec : ExplorationRecord)
    (h : (toolExecutionNode cfg env parse s).exploration_history.getLast? = some rec) :
    ∀ tc ∈ rec.tool_calls, dictGet tc.arguments "repo_path" = some s.repo_path := by
  rw [toolExecutionNode_explo, List.getLast?_concat] at h
  have h' := Option.some.inj h
  subst h'
  intro tc htc
  exact execTools_repoPath env.handler s.repo_path _ tc htc

/-- C7, witness: the oracle proposed `repo_path = "EVIL"`, the recorded call
carries the run's root "r". -/
theorem C7_repo_path_injection_witness :
    dictGet tcC7.arguments "repo_path" = some "r" :=
  C7_repo_path_injection cfgOneCall envNever (.parsedList [goodSpec])
    (create_initial_state "r" none 10) recC7 rfl tcC7 (by decide)

/-- C8: capability failures are isolated per call — a failing handler is
recorded as a `ToolCall` with `success = false` and its error text, its
failure entry joins the evidence bundle, the rest of the batch is dispatched
unchanged; every recorded call (in particular every successful one) names a
registered capability; and the tool node always ends in the
`tools_executed` status, so the run proceeds to the next synthesis. -/
theorem C8_failure_isolation (cfg : AgentConfig) (env : Env) :
    (∀ repo spec rest e, spec.tool.getD "" ∈ TOOL_REGISTRY →
      env.handler (spec.tool.getD "") (dictSet (spec.args.getD []) "repo_path" repo) =
        .error e →
      execTools env.handler repo (spec :: rest) =
        ({ tool_name := spec.tool.getD ""
           arguments := dictSet (spec.args.getD []) "repo_path" repo
           result := e
           success := false } :: (execTools env.handler repo rest).1,
         resultEntryErr (spec.tool.getD "") e :: (execTools env.handler repo rest).2)) ∧
    (∀ repo l, ∀ tc ∈ (execTools env.handler repo l).1, tc.success = true →
      tc.tool_name ∈ TOOL_REGISTRY) ∧
    (∀ parse s, (toolExecutionNode cfg env parse s).status = "tools_executed") := by
  refine ⟨?_, ?_, ?_⟩
  · intro repo spec rest e hreg herr
    exact execTools_error_cons env.handler repo spec rest e hreg herr
  · intro repo l tc htc _
    exact execTools_registered env.handler repo l tc htc
  · intro parse s
    exact toolExecutionNode_status cfg env parse s

/-- C8, witness: a failing `search_code` followed by a succeeding
`get_file_content` — the failure is recorded and the rest of the batch still
runs; the node ends in `tools_executed`. -/
theorem C8_failure_isolation_witness :
    execTools envFail.handler "r" (failSpec :: [goodSpec]) =
      ({ tool_name := failSpec.tool.getD ""
         arguments := dictSet (failSpec.args.getD []) "repo_path" "r"
         result := "boom"
         success := false } :: (execTools envFail.handler "r" [goodSpec]).1,
       resultEntryErr (failSpec.tool.getD "") "boom" ::
         (execTools envFail.handler "r" [goodSpec]).2) ∧
    (toolExecutionNode cfgOneCall envFail .emptyStr
      (create_initial_state "r" none 10)).status = "tools_executed" :=
  ⟨(C8_failure_isolation cfgOneCall envFail).1 "r" failSpec [goodSpec] "boom"
      (by decide) (by decide),
   (C8_failure_isolation cfgOneCall envFail).2.2 .emptyStr
      (create_initial_state "r" none 10)⟩

/-- C9: a missing repository root terminates the run immediately with status
`error` and a human-readable description, zero iterations, and no synthesis,
evaluation or dispatch node ever runs (the trace is the init node alone). -/
theorem C9_missing_repo (cfg : AgentConfig) (env : Env) (repo : String) (fuel : Nat)
    (h : env.repoExists = false) :
    runAgent cfg env repo fuel =
      [(NodeTag.init, { create_initial_state repo none cfg.max_iterations with
          status := "error", error := some ("仓库路径不存在: " ++ repo) })] ∧
    (∀ p ∈ runAgent cfg env repo fuel, p.1 = NodeTag.init ∧ p.2.iteration_count = 0 ∧
      p.2.status = "error" ∧ p.2.error = some ("仓库路径不存在: " ++ repo)) ∧
    genCount (runAgent cfg env repo fuel) = 0 := by
  have hi := initNode_missing env (create_initial_state repo none cfg.max_iterations) h
  have hrun : runAgent cfg env repo fuel =
      [(NodeTag.init, initNode env (create_initial_state repo none cfg.max_iterations))] := by
    unfold runAgent
    rw [if_pos (by rw [hi])]
  refine ⟨?_, ?_, ?_⟩
  · rw [hrun, hi]
    rfl
  · intro p hp
    rw [hrun] at hp
    simp only [List.mem_singleton] at hp
    subst hp
    refine ⟨rfl, ?_, ?_, ?_⟩ <;> rw [hi] <;> rfl
  · rw [hrun]
    rfl

/-- C9, witness: a concrete run with `repoExists = false`. -/
theorem C9_missing_repo_witness :
    runAgent cfgTwo envNoRepo "missing" 3 =
      [(NodeTag.init, { create_initial_state "missing" none cfgTwo.max_iterations with
          status := "error", error := some ("仓库路径不存在: " ++ "missing") })] ∧
    genCount (runAgent cfgTwo envNoRepo "missing" 3) = 0 :=
  ⟨(C9_missing_repo cfgTwo envNoRepo "missing" 3 rfl).1,
   (C9_missing_repo cfgTwo envNoRepo "missing" 3 rfl).2.2⟩

end Repo2Doc
